import Mathlib

/-!
Verification development for the azusa.supabase backend (RAG ingestion and
retrieval pipeline plus the conversational orchestration engine).

Shallow embedding conventions:
* Database tables are Lean lists of row structures; `supabase` query chains
  (`.eq`, `.in`, `.ilike`, `.order`, `.limit`, `.single`) become list
  filters, sorts, `take` and a `singleRow` helper with PostgREST semantics.
* External collaborators (pgvector distance operator, storage download,
  document loaders, the text splitter, the embedding provider, the batch
  insert outcome) are parameters of the embedded functions, as the code
  invokes them as black boxes.
* JavaScript string operations (`endsWith`, `startsWith`, `toLowerCase`,
  SQL `ILIKE`) are modelled over character lists so that every definition
  evaluates inside the kernel.
-/

/-- Model of the JavaScript `fileName.endsWith(suffix)` test. -/
def jsEndsWith (s suffix : String) : Bool :=
  suffix.toList.isSuffixOf s.toList

/-- Model of the JavaScript `s.startsWith(prefixStr)` test. -/
def jsStartsWith (s prefixStr : String) : Bool :=
  prefixStr.toList.isPrefixOf s.toList

/-- Model of `s.toLowerCase()`, character by character. -/
def jsToLower (s : String) : List Char :=
  s.toList.map Char.toLower

/-- Whether `needle` occurs as a contiguous run inside `hay`. -/
def containsRun (hay needle : List Char) : Bool :=
  match hay with
  | [] => needle.isEmpty
  | _ :: t => needle.isPrefixOf hay || containsRun t needle

/-- Model of the SQL predicate `content ILIKE '%pat%'`: case-insensitive
substring containment. -/
def ilikeMatch (content pat : String) : Bool :=
  containsRun (jsToLower content) (jsToLower pat)

/-- Model of the regex replacement `replace(/\s+/g, " ")`: each maximal run
of whitespace becomes a single space.  The boolean argument records whether
the previous character was whitespace. -/
def collapseWsAux : Bool → List Char → List Char
  | _, [] => []
  | prevWs, c :: rest =>
    if c.isWhitespace then
      if prevWs then collapseWsAux true rest
      else Char.ofNat 32 :: collapseWsAux true rest
    else c :: collapseWsAux false rest

/-- Whitespace-collapse on strings, used for the cached last-message preview. -/
def collapseWs (s : String) : String :=
  String.mk (collapseWsAux false s.toList)

/-- PostgREST `.single()` semantics: data is returned exactly when the
filtered result holds one row; zero rows or several rows yield an error,
which the callers read as `null` data. -/
def singleRow {α : Type} (rows : List α) : Option α :=
  match rows with
  | [a] => some a
  | _ => none

/-- Row of the `knowledge_documents` table (the persisted chunks), as far as
the retrieval claims need it.  The embedding column itself stays external:
the pgvector distance `kd.embedding <=> query_embedding` for the fixed query
of a call is a parameter `dist` of the search functions. -/
structure KnowledgeDocument where
  id : String
  knowledge_base_id : String
  content : String
deriving DecidableEq, Repr

/-- Ordering used to present search results: descending similarity, which is
exactly the `ORDER BY kd.embedding <=> query_embedding` (ascending cosine
distance) of the SQL function, since similarity = 1 - distance. -/
def bySimilarityDesc (a b : KnowledgeDocument × ℚ) : Prop :=
  b.2 ≤ a.2

instance : DecidableRel bySimilarityDesc :=
  fun a b => inferInstanceAs (Decidable (b.2 ≤ a.2))

instance : IsTotal (KnowledgeDocument × ℚ) bySimilarityDesc :=
  ⟨fun a b => le_total b.2 a.2⟩

instance : IsTrans (KnowledgeDocument × ℚ) bySimilarityDesc :=
  ⟨fun _ _ _ h1 h2 => le_trans h2 h1⟩

/-- The row filter of `match_knowledge_documents`: scoped to the given
knowledge bases and keeping similarity strictly above the threshold. -/
def matchFilter (dist : KnowledgeDocument → ℚ) (knowledgeBaseIds : List String)
    (matchThreshold : ℚ) (kd : KnowledgeDocument) : Bool :=
  decide (kd.knowledge_base_id ∈ knowledgeBaseIds ∧ matchThreshold < 1 - dist kd)

/-- The SQL function `match_knowledge_documents` of migration
20251222074402: select id/content/similarity from `knowledge_documents`
where the knowledge base id is in the given array and
`1 - (embedding <=> query) > match_threshold`, ordered by distance
ascending, limited to `match_count`. -/
def matchKnowledgeDocuments (dist : KnowledgeDocument → ℚ)
    (knowledgeBaseIds : List String) (matchThreshold : ℚ) (matchCount : ℕ)
    (table : List KnowledgeDocument) : List (KnowledgeDocument × ℚ) :=
  (List.insertionSort bySimilarityDesc
    ((table.filter (matchFilter dist knowledgeBaseIds matchThreshold)).map
      (fun kd => (kd, 1 - dist kd)))).take matchCount

/-- Request body of POST /knowledge/search before validation;
`threshold`/`limit` may be omitted. -/
structure SearchKnowledgeInput where
  query : String
  knowledgeBaseIds : List String
  threshold : Option ℚ
  limit : Option ℕ
deriving DecidableEq, Repr

/-- Validated parameters after the zod schema ran, defaults applied. -/
structure SearchKnowledgeParams where
  query : String
  knowledgeBaseIds : List String
  threshold : ℚ
  limit : ℕ
deriving DecidableEq, Repr

/-- The zod `searchKnowledgeSchema` of knowledge/index.ts:
`query: z.string().min(1)`, `knowledgeBaseIds: z.array(z.string()).min(1)`,
`threshold: z.number().optional().default(0.5)`,
`limit: z.number().optional().default(5)`. -/
def searchKnowledgeSchemaParse (i : SearchKnowledgeInput) :
    Except String SearchKnowledgeParams :=
  if i.query.length < 1 then .error "Validation Error"
  else if i.knowledgeBaseIds.length < 1 then .error "Validation Error"
  else .ok { query := i.query
             knowledgeBaseIds := i.knowledgeBaseIds
             threshold := i.threshold.getD 0.5
             limit := i.limit.getD 5 }

/-- The POST /knowledge/search handler: validate, embed the query (absorbed
into `dist`), call the `match_knowledge_documents` RPC with the validated
threshold and limit. -/
def postKnowledgeSearch (dist : KnowledgeDocument → ℚ)
    (table : List KnowledgeDocument) (i : SearchKnowledgeInput) :
    Except String (List (KnowledgeDocument × ℚ)) :=
  match searchKnowledgeSchemaParse i with
  | .error e => .error e
  | .ok p =>
    .ok (matchKnowledgeDocuments dist p.knowledgeBaseIds p.threshold p.limit table)

/-- The filter of the `search_knowledge_base` tool query in
chats/service.ts `createRAGTool`: rows of subscribed knowledge bases whose
content matches `ILIKE '%query%'`. -/
def ragRowFilter (kbIds : List String) (query : String)
    (kd : KnowledgeDocument) : Bool :=
  decide (kd.knowledge_base_id ∈ kbIds) && ilikeMatch kd.content query

/-- Response text of the `search_knowledge_base` tool built by
`createRAGTool` (chats/service.ts): empty subscription list short-circuits;
otherwise select content from `knowledge_documents` scoped by
`.in("knowledge_base_id", kbIds)` and `.ilike("content", query)` with
`.limit(5)`; an empty result yields the sentinel, otherwise the contents are
joined with blank lines. -/
def ragToolResponse (table : List KnowledgeDocument) (kbIds : List String)
    (query : String) : String :=
  if kbIds.length = 0 then "No linked knowledge bases."
  else
    let rows := (table.filter (ragRowFilter kbIds query)).take 5
    if rows.length = 0 then "No relevant information found."
    else String.intercalate "\n\n" (rows.map (fun d => d.content))

/-- Modelled from the spec: section 4.6 describes the `search_knowledge_base`
tool as wired to the Retrieval Service of section 4.5, that is thresholded
cosine-similarity search scoped to the subscribed knowledge base ids with a
fixed top-5 cap, returning the flattened join of matched chunk contents or
the explicit sentinel.  This definition follows the spec wording and is
compared against `ragToolResponse`, which is what the code does. -/
def ragToolSpecResponse (dist : KnowledgeDocument → ℚ)
    (table : List KnowledgeDocument) (kbIds : List String) (threshold : ℚ) :
    String :=
  let results := matchKnowledgeDocuments dist kbIds threshold 5 table
  if results.length = 0 then "No relevant information found."
  else String.intercalate "\n\n" (results.map (fun p => p.1.content))

/-- Outcome of the multi-format parse dispatch: either a dedicated extractor
is chosen, or an unsupported-format error is thrown with its message. -/
inductive ParseDispatch where
  | pdf
  | docx
  | csv
  | json
  | html
  | text
  | unsupported (msg : String)
deriving DecidableEq, Repr

/-- Dispatch logic of `parseFileContent` in knowledge/index.ts: branch order
is pdf, docx, pptx (rejected), csv, json, doc (rejected), ppt (rejected),
html, then the plain-text loader as the default.  Each branch tests the
lowered MIME type or the file name suffix. -/
def parseFileContentDispatch (fileType fileName : String) : ParseDispatch :=
  let mimeType := String.mk (jsToLower fileType)
  if mimeType = "application/pdf" || jsEndsWith fileName ".pdf" then .pdf
  else if
    mimeType =
        "application/vnd.openxmlformats-officedocument.wordprocessingml.document"
      || jsEndsWith fileName ".docx" then .docx
  else if
    mimeType =
        "application/vnd.openxmlformats-officedocument.presentationml.presentation"
      || jsEndsWith fileName ".pptx" then .unsupported "不支持 .pptx 格式"
  else if mimeType = "text/csv" || jsEndsWith fileName ".csv" then .csv
  else if mimeType = "application/json" || jsEndsWith fileName ".json" then .json
  else if mimeType = "application/msword" || jsEndsWith fileName ".doc" then
    .unsupported "不支持 .doc 格式，请转换为 .docx 或 .pdf 后重新上传"
  else if mimeType = "application/vnd.ms-powerpoint" || jsEndsWith fileName ".ppt"
    then .unsupported "不支持 .ppt 格式"
  else if mimeType = "text/html" || jsEndsWith fileName ".html" then .html
  else .text

/-- Dispatch logic of the polling embedding worker own `parseFileContent`:
branch order is pdf, docx, csv, json, html, then the plain-text loader.
This version contains no rejection branch for legacy formats. -/
def workerParseFileContentDispatch (fileType fileName : String) : ParseDispatch :=
  let mimeType := String.mk (jsToLower fileType)
  if mimeType = "application/pdf" || jsEndsWith fileName ".pdf" then .pdf
  else if
    mimeType =
        "application/vnd.openxmlformats-officedocument.wordprocessingml.document"
      || jsEndsWith fileName ".docx" then .docx
  else if mimeType = "text/csv" || jsEndsWith fileName ".csv" then .csv
  else if mimeType = "application/json" || jsEndsWith fileName ".json" then .json
  else if mimeType = "text/html" || jsEndsWith fileName ".html" then .html
  else .text

/-- A dispatch branch condition: the lowered MIME type equals `mime` or the
file name ends in `ext`. -/
def mimeOrExt (fileType fileName mime ext : String) : Prop :=
  String.mk (jsToLower fileType) = mime ∨ jsEndsWith fileName ext = true

instance (fileType fileName mime ext : String) :
    Decidable (mimeOrExt fileType fileName mime ext) := by
  unfold mimeOrExt
  infer_instance

/-- Behaviour of one plugin execution inside the sandbox worker, abstracted
to what the host can observe: the worker posts its first message at wall
time `t` milliseconds (a success result, or a caught exception whose
`message` and `String(err)` rendering are both recorded), or it never posts
anything. -/
inductive PluginRun where
  | returns (t : ℕ) (result : String)
  | throws (t : ℕ) (message : String) (strRepr : String)
  | hangs
deriving DecidableEq, Repr

/-- The sandbox timeout of `runPluginInSandbox`: 5000 ms. -/
def pluginTimeoutMs : ℕ := 5000

/-- The error payload built inside the worker `catch` block:
`err?.message || String(err)`. -/
def workerErrorPayload (message strRepr : String) : String :=
  if message = "" then strRepr else message

/-- `runPluginInSandbox` of chats/service.ts as a function of the plugin run
behaviour.  The `setTimeout` fires at 5000 ms, terminates the worker and
rejects with the timeout error; a worker message arriving strictly earlier
clears the timer and resolves or rejects (`event.data?.error ||
"Plugin execution failed"`). -/
def runPluginInSandbox (run : PluginRun) : Except String String :=
  match run with
  | .hangs => .error "Plugin execution timed out"
  | .returns t r =>
    if pluginTimeoutMs ≤ t then .error "Plugin execution timed out" else .ok r
  | .throws t m s =>
    if pluginTimeoutMs ≤ t then .error "Plugin execution timed out"
    else
      let p := workerErrorPayload m s
      .error (if p = "" then "Plugin execution failed" else p)

/-- Response text of a plugin tool built by `createPluginTool`: the sandbox
result on success, and on any rejection the inline error text
`Error executing plugin <name>: <message>`; the tool itself never throws. -/
def pluginToolResponse (pluginName : String) (run : PluginRun) : String :=
  match runPluginInSandbox run with
  | .ok r => r
  | .error m => "Error executing plugin " ++ pluginName ++ ": " ++ m

/-- Predicate: the sandboxed code has not produced its message strictly
before the 5000 ms timer fires. -/
def exceedsTimeout : PluginRun → Prop
  | .hangs => True
  | .returns t _ => pluginTimeoutMs ≤ t
  | .throws t _ _ => pluginTimeoutMs ≤ t

instance : DecidablePred exceedsTimeout := by
  intro r
  cases r <;> simp [exceedsTimeout] <;> infer_instance

/-- One typed content part of a message (`MessageContent`): the code stores
message content as a list of parts such as text or image references. -/
structure MessagePart where
  type : String
  text : String
deriving DecidableEq, Repr

/-- Row of the `messages` table as the stream claims need it. -/
structure StoredMessage where
  chat_id : String
  sender_type : String
  sender_id : String
  content : List MessagePart
deriving DecidableEq, Repr

/-- Persistent chat state touched by `streamMessage`: the messages table and
the cached `last_message` preview on the chat row. -/
structure ChatStreamState where
  messages : List StoredMessage
  lastMessage : Option String
deriving DecidableEq, Repr

/-- The external agent stream of one generation: the sequence of chunk
contents surfaced to the `for await` loop (`some s` is a string content,
`none` a chunk with no string content), followed by normal completion or a
raised error with its message. -/
inductive AgentStreamOutcome where
  | success (chunks : List (Option String))
  | failure (chunks : List (Option String)) (errMsg : String)
deriving DecidableEq, Repr

/-- Chunk contents of a stream outcome. -/
def chunksOf : AgentStreamOutcome → List (Option String)
  | .success cs => cs
  | .failure cs _ => cs

/-- The text increments actually yielded by the loop: the guard
`chunk.content && typeof chunk.content === "string"` skips chunks without
string content and skips the empty string (falsy). -/
def textChunks (chunks : List (Option String)) : List String :=
  chunks.filterMap (fun c =>
    match c with
    | some s => if s = "" then none else some s
    | none => none)

/-- The accumulated `fullResponse` buffer: concatenation of the yielded
increments. -/
def fullResponseOf (chunks : List (Option String)) : String :=
  String.join (textChunks chunks)

/-- The message row written by `saveUserMessage`. -/
def userMessageRow (chatId profileId : String) (message : List MessagePart) :
    StoredMessage :=
  { chat_id := chatId, sender_type := "user", sender_id := profileId
    content := message }

/-- The message row written by `saveAIMessage`: a single text part. -/
def aiMessageRow (chatId characterId fullResponse : String) : StoredMessage :=
  { chat_id := chatId, sender_type := "character", sender_id := characterId
    content := [{ type := "text", text := fullResponse }] }

/-- `streamMessage` of chats/service.ts as a function of the chat state, the
resolved AI member of the chat (`none` when the chat holds no character) and
the agent stream behaviour.  Steps: save the user message first; without an
AI member yield the sentinel and stop; otherwise drive the stream, yielding
each string chunk, on error yield the inline error marker, and in the
`finally` block persist the accumulated text as the character message and
update the last-message preview only when the accumulation is non-empty.
Returns the yielded outputs and the new state. -/
def streamMessage (st : ChatStreamState) (chatId profileId : String)
    (message : List MessagePart) (aiCharacter : Option String)
    (stream : AgentStreamOutcome) : List String × ChatStreamState :=
  let st1 : ChatStreamState :=
    { st with messages := st.messages ++ [userMessageRow chatId profileId message] }
  match aiCharacter with
  | none => (["No AI in this chat."], st1)
  | some aiId =>
    let outs :=
      match stream with
      | .success cs => textChunks cs
      | .failure cs e => textChunks cs ++ ["\n[Error: " ++ e ++ "]"]
    let fullResponse := fullResponseOf (chunksOf stream)
    if fullResponse = "" then (outs, st1)
    else
      (outs,
        { messages := st1.messages ++ [aiMessageRow chatId aiId fullResponse]
          lastMessage := some (collapseWs (fullResponse.take 50)) })

/-- Row of the `chats` table as the private-chat claims need it. -/
structure ChatRow where
  id : String
  owner_id : String
  name : String
  is_group : Bool
deriving DecidableEq, Repr

/-- Row of the `chat_members` table: `member_type` is `"user"` with a
profile id or `"character"` with a character id. -/
structure ChatMemberRow where
  chat_id : String
  member_type : String
  profile_id : Option String
  character_id : Option String
  role : String
deriving DecidableEq, Repr

/-- The chat tables touched by `createPrivateChat`. -/
structure ChatDB where
  chats : List ChatRow
  chat_members : List ChatMemberRow
deriving DecidableEq, Repr

/-- Result of `createPrivateChat`: the new database state, the returned chat
and the `isNew` flag. -/
structure PrivateChatResult where
  db : ChatDB
  chat : ChatRow
  isNew : Bool
deriving DecidableEq, Repr

/-- `createPrivateChat` of chats/service.ts.  Lookup: the user memberships,
then a `.single()` read of the character membership among those chats, then
a `.single()` read of that chat restricted to `is_group = false`; when both
reads return a row the existing chat is returned with `isNew = false`.  Any
other path inserts a fresh chat (id `newId`) with its two member rows and
returns it with `isNew = true`. -/
def createPrivateChat (db : ChatDB) (newId profileId characterId name : String) :
    PrivateChatResult :=
  let userChats := db.chat_members.filter (fun m =>
    decide (m.member_type = "user" ∧ m.profile_id = some profileId))
  let existing : Option ChatRow :=
    if userChats.length > 0 then
      let chatIds := userChats.map (fun uc => uc.chat_id)
      match singleRow (db.chat_members.filter (fun m =>
          decide (m.chat_id ∈ chatIds ∧ m.member_type = "character"
            ∧ m.character_id = some characterId))) with
      | some existingMember =>
        singleRow (db.chats.filter (fun ch =>
          decide (ch.id = existingMember.chat_id ∧ ch.is_group = false)))
      | none => none
    else none
  match existing with
  | some existingChat => { db := db, chat := existingChat, isNew := false }
  | none =>
    let newChat : ChatRow :=
      { id := newId, owner_id := profileId, name := name, is_group := false }
    { db :=
        { chats := db.chats ++ [newChat]
          chat_members := db.chat_members ++
            [ { chat_id := newId, member_type := "user"
                profile_id := some profileId, character_id := none
                role := "owner" }
            , { chat_id := newId, member_type := "character"
                profile_id := none, character_id := some characterId
                role := "member" } ] }
      chat := newChat
      isNew := true }

/-- Row of the `knowledge_files` table. -/
structure KnowledgeFileRow where
  id : String
  knowledge_base_id : String
  file_path : String
  file_name : String
  file_type : String
  status : String
  error_message : Option String
  chunk_count : Option ℕ
  created_at : ℕ
deriving DecidableEq, Repr

/-- Row inserted into `knowledge_documents` by the ingestion paths; the
chunk index and total chunk count live in the metadata object. -/
structure KnowledgeDocumentInsert where
  knowledge_base_id : String
  file_id : String
  content : String
  chunkIndex : ℕ
  totalChunks : ℕ
  embedding : List ℚ
deriving DecidableEq, Repr

/-- The two tables touched by ingestion. -/
structure IngestDB where
  files : List KnowledgeFileRow
  documents : List KnowledgeDocumentInsert
deriving DecidableEq, Repr

/-- An `update(...).eq("id", fileId)` on `knowledge_files`. -/
def updateFileRow (files : List KnowledgeFileRow) (fileId : String)
    (f : KnowledgeFileRow → KnowledgeFileRow) : List KnowledgeFileRow :=
  files.map (fun r => if r.id = fileId then f r else r)

/-- Ascending `created_at` order used by the worker queue poll. -/
def byCreatedAsc (a b : KnowledgeFileRow) : Prop :=
  a.created_at ≤ b.created_at

instance : DecidableRel byCreatedAsc :=
  fun a b => inferInstanceAs (Decidable (a.created_at ≤ b.created_at))

instance : IsTotal KnowledgeFileRow byCreatedAsc :=
  ⟨fun a b => Nat.le_total a.created_at b.created_at⟩

instance : IsTrans KnowledgeFileRow byCreatedAsc :=
  ⟨fun _ _ _ h1 h2 => Nat.le_trans h1 h2⟩

/-- The queue read of the worker claim step: select from `knowledge_files`
where status is pending, ordered by `created_at` ascending, limit 1,
`.single()`. -/
def pendingQueueHead (db : IngestDB) : Option KnowledgeFileRow :=
  (List.insertionSort byCreatedAsc
    (db.files.filter (fun f => decide (f.status = "pending")))).head?

/-- The write of the worker claim step: an unconditional
`update({ status: "processing" }).eq("id", fileId)`; the update carries no
compare on the previous status. -/
def claimProcessing (db : IngestDB) (fileId : String) : IngestDB :=
  { db with
    files := updateFileRow db.files fileId
      (fun r => { r with status := "processing" }) }

/-- The failure update shared by every ingestion error path:
`update({ status: "failed", error_message })`. -/
def markFileFailed (db : IngestDB) (fileId msg : String) : IngestDB :=
  { db with
    files := updateFileRow db.files fileId
      (fun r => { r with status := "failed", error_message := some msg }) }

/-- External collaborators of the ingestion paths: blob download by path,
the document loaders (content, file type, file name to page texts, or a
parse failure), the recursive character text splitter, the embedding
provider, and the outcome of the chunk batch insert. -/
structure IngestWorld where
  download : String → Except String String
  parseDocs : String → String → String → Except String (List String)
  split : String → List String
  embed : List String → Except String (List (List ℚ))
  insertOutcome : Option String
deriving Inhabited

/-- The batch of `knowledge_documents` rows built before the insert: one row
per split chunk zipped with its vector, carrying the chunk index and the
total chunk count. -/
def documentsToInsert (kbId fileId : String) (splitDocs : List String)
    (vectors : List (List ℚ)) : List KnowledgeDocumentInsert :=
  (splitDocs.zip vectors).enum.map (fun p =>
    { knowledge_base_id := kbId, file_id := fileId, content := p.2.1
      chunkIndex := p.1, totalChunks := splitDocs.length
      embedding := p.2.2 })

/-- `processOne` of the polling embedding worker.  Control flow translated
branch for branch: read the queue head (queue empty ends the cycle);
unconditionally update the file to processing; download (failure marks the
file failed); text-typed files use the downloaded text directly as one
document, other files go through the loaders; empty total content, an empty
split, an embedding failure or an insert failure mark the file failed; on
success the chunk rows are inserted and the file status set to completed —
the success update writes only the status column. -/
def processOne (w : IngestWorld) (db : IngestDB) : IngestDB :=
  match pendingQueueHead db with
  | none => db
  | some fileRecord =>
    let db1 := claimProcessing db fileRecord.id
    match w.download fileRecord.file_path with
    | .error e => markFileFailed db1 fileRecord.id e
    | .ok raw =>
      let parsed : Except String (List String) :=
        if jsStartsWith fileRecord.file_type "text/" then .ok [raw]
        else w.parseDocs raw fileRecord.file_type fileRecord.file_name
      match parsed with
      | .error e => markFileFailed db1 fileRecord.id e
      | .ok pages =>
        let totalContent := String.intercalate "\n\n" pages
        if totalContent.length = 0 then
          markFileFailed db1 fileRecord.id "No content to process after parsing"
        else
          let splitDocs := w.split totalContent
          if splitDocs.length = 0 then
            markFileFailed db1 fileRecord.id "No content to process after splitting"
          else
            match w.embed splitDocs with
            | .error e => markFileFailed db1 fileRecord.id e
            | .ok vectors =>
              match w.insertOutcome with
              | some e => markFileFailed db1 fileRecord.id e
              | none =>
                { files := updateFileRow db1.files fileRecord.id
                    (fun r => { r with status := "completed" })
                  documents := db1.documents ++
                    documentsToInsert fileRecord.knowledge_base_id fileRecord.id
                      splitDocs vectors }

/-- Content handed to the edge-function background task: either the JSON
string content or an uploaded blob with its declared type. -/
inductive UploadContent where
  | text (s : String)
  | blob (data : String) (fileType : String)
deriving DecidableEq, Repr

/-- The parse stage of `processDocumentTask`: string content becomes a
single document directly; blob content goes through `parseFileContent`,
with a parse failure re-thrown as `文件解析失败: ...`. -/
def edgeParsedPages (w : IngestWorld) (fileName : String)
    (content : UploadContent) : Except String (List String) :=
  match content with
  | .text s => .ok [s]
  | .blob data fileType =>
    match w.parseDocs data fileType fileName with
    | .error e => .error ("文件解析失败: " ++ e)
    | .ok pages => .ok pages

/-- `processDocumentTask` of knowledge/index.ts (the edge-function
background ingestion).  Same pipeline as the worker, except the file row was
already inserted as processing, and the success update writes
`status: "completed"` together with `chunk_count: splitDocs.length`. -/
def processDocumentTask (w : IngestWorld) (db : IngestDB)
    (fileId kbId fileName : String) (content : UploadContent) : IngestDB :=
  match edgeParsedPages w fileName content with
  | .error e => markFileFailed db fileId e
  | .ok pages =>
    let totalContent := String.intercalate "\n\n" pages
    if totalContent.length = 0 then
      markFileFailed db fileId "No content to process after parsing"
    else
      let splitDocs := w.split totalContent
      if splitDocs.length = 0 then
        markFileFailed db fileId "No content to process after splitting"
      else
        match w.embed splitDocs with
        | .error e => markFileFailed db fileId e
        | .ok vectors =>
          match w.insertOutcome with
          | some e => markFileFailed db fileId e
          | none =>
            { files := updateFileRow db.files fileId
                (fun r =>
                  { r with
                    status := "completed"
                    chunk_count := some splitDocs.length })
              documents := db.documents ++
                documentsToInsert kbId fileId splitDocs vectors }

/-- The claim step of two worker instances interleaved as the awaits allow:
both execute the queue read before either executes the status write, then
both writes run.  Returns what each worker claimed and the final state. -/
def twoWorkerClaim (db : IngestDB) :
    Option KnowledgeFileRow × Option KnowledgeFileRow × IngestDB :=
  let readA := pendingQueueHead db
  let readB := pendingQueueHead db
  let db1 := match readA with
    | some f => claimProcessing db f.id
    | none => db
  let db2 := match readB with
    | some f => claimProcessing db1 f.id
    | none => db1
  (readA, readB, db2)

/-- Concrete pending file used by the concurrency and ingestion scenarios. -/
def exampleFileRow : KnowledgeFileRow :=
  { id := "f1", knowledge_base_id := "kb1", file_path := "kb1/f1.txt"
    file_name := "f1.txt", file_type := "text/plain", status := "pending"
    error_message := none, chunk_count := none, created_at := 0 }

/-- Ingestion database holding the single pending file. -/
def examplePendingDB : IngestDB :=
  { files := [exampleFileRow], documents := [] }

/-- Concrete external world where every ingestion step succeeds and the
splitter yields two chunks. -/
def exampleIngestWorld : IngestWorld :=
  { download := fun _ => .ok "hello world"
    parseDocs := fun _ _ _ => .ok []
    split := fun _ => ["hello", "world"]
    embed := fun ts => .ok (ts.map (fun _ => [0]))
    insertOutcome := none }

/-- Chat database where user `u` has a private chat `c1` with character `k`
and also a group chat `c2` containing the same character. -/
def exampleChatDB : ChatDB :=
  { chats :=
      [ { id := "c1", owner_id := "u", name := "priv", is_group := false }
      , { id := "c2", owner_id := "u", name := "grp", is_group := true } ]
    chat_members :=
      [ { chat_id := "c1", member_type := "user", profile_id := some "u"
          character_id := none, role := "owner" }
      , { chat_id := "c1", member_type := "character", profile_id := none
          character_id := some "k", role := "member" }
      , { chat_id := "c2", member_type := "user", profile_id := some "u"
          character_id := none, role := "owner" }
      , { chat_id := "c2", member_type := "character", profile_id := none
          character_id := some "k", role := "member" } ] }

/-- Chat database holding only the private chat `c1` of user `u` and
character `k`. -/
def examplePrivateOnlyDB : ChatDB :=
  { chats := [ { id := "c1", owner_id := "u", name := "priv", is_group := false } ]
    chat_members :=
      [ { chat_id := "c1", member_type := "user", profile_id := some "u"
          character_id := none, role := "owner" }
      , { chat_id := "c1", member_type := "character", profile_id := none
          character_id := some "k", role := "member" } ] }

theorem mem_matchKnowledgeDocuments {dist : KnowledgeDocument → ℚ}
    {knowledgeBaseIds : List String} {matchThreshold : ℚ} {matchCount : ℕ}
    {table : List KnowledgeDocument} {p : KnowledgeDocument × ℚ}
    (hp : p ∈ matchKnowledgeDocuments dist knowledgeBaseIds matchThreshold
      matchCount table) :
    p.1 ∈ table ∧ p.1.knowledge_base_id ∈ knowledgeBaseIds
      ∧ p.2 = 1 - dist p.1 ∧ matchThreshold < p.2 := by
  have hsorted := List.mem_of_mem_take hp
  have hperm := List.perm_insertionSort bySimilarityDesc
    ((table.filter (matchFilter dist knowledgeBaseIds matchThreshold)).map
      (fun kd => (kd, 1 - dist kd)))
  have hmap := hperm.mem_iff.mp hsorted
  rcases List.mem_map.mp hmap with ⟨kd, hkd, rfl⟩
  rcases List.mem_filter.mp hkd with ⟨hmem, hflt⟩
  rcases of_decide_eq_true hflt with ⟨hkb, hthr⟩
  exact ⟨hmem, hkb, rfl, hthr⟩

theorem complete_matchKnowledgeDocuments {dist : KnowledgeDocument → ℚ}
    {knowledgeBaseIds : List String} {matchThreshold : ℚ} {matchCount : ℕ}
    {table : List KnowledgeDocument} {kd : KnowledgeDocument}
    (hmem : kd ∈ table) (hkb : kd.knowledge_base_id ∈ knowledgeBaseIds)
    (hthr : matchThreshold < 1 - dist kd)
    (hlen : (table.filter (matchFilter dist knowledgeBaseIds
      matchThreshold)).length ≤ matchCount) :
    (kd, 1 - dist kd) ∈ matchKnowledgeDocuments dist knowledgeBaseIds
      matchThreshold matchCount table := by
  set l := (table.filter (matchFilter dist knowledgeBaseIds matchThreshold)).map
    (fun kd => (kd, 1 - dist kd)) with hl
  have hperm := List.perm_insertionSort bySimilarityDesc l
  have hlenl : l.length ≤ matchCount := by
    simpa [hl, List.length_map] using hlen
  have hsortlen : (List.insertionSort bySimilarityDesc l).length ≤ matchCount := by
    simpa [hperm.length_eq] using hlenl
  have htake : (List.insertionSort bySimilarityDesc l).take matchCount
      = List.insertionSort bySimilarityDesc l := List.take_of_length_le hsortlen
  have hinl : (kd, 1 - dist kd) ∈ l := by
    refine List.mem_map_of_mem _ (List.mem_filter.mpr ⟨hmem, ?_⟩)
    exact decide_eq_true ⟨hkb, hthr⟩
  have : (kd, 1 - dist kd) ∈ List.insertionSort bySimilarityDesc l :=
    hperm.mem_iff.mpr hinl
  simpa [matchKnowledgeDocuments, htake, hl] using this

/-- C4: in `match_knowledge_documents`, a persisted chunk enters the result
only with similarity `1 - dist` strictly greater than the threshold (a chunk
whose similarity equals the threshold is excluded); every in-scope chunk
strictly above the threshold is returned whenever the qualifying set fits in
the limit; and the result is ordered by descending similarity and holds at
most `matchCount` entries. -/
theorem match_documents_threshold_order_limit (dist : KnowledgeDocument → ℚ)
    (knowledgeBaseIds : List String) (matchThreshold : ℚ) (matchCount : ℕ)
    (table : List KnowledgeDocument) :
    (∀ p ∈ matchKnowledgeDocuments dist knowledgeBaseIds matchThreshold
        matchCount table,
      p.1 ∈ table ∧ p.1.knowledge_base_id ∈ knowledgeBaseIds
        ∧ p.2 = 1 - dist p.1 ∧ matchThreshold < p.2)
    ∧ (∀ kd ∈ table, 1 - dist kd = matchThreshold →
        ∀ s, (kd, s) ∉ matchKnowledgeDocuments dist knowledgeBaseIds
          matchThreshold matchCount table)
    ∧ (∀ kd ∈ table, kd.knowledge_base_id ∈ knowledgeBaseIds →
        matchThreshold < 1 - dist kd →
        (table.filter (matchFilter dist knowledgeBaseIds matchThreshold)).length
            ≤ matchCount →
        (kd, 1 - dist kd) ∈ matchKnowledgeDocuments dist knowledgeBaseIds
          matchThreshold matchCount table)
    ∧ List.Sorted bySimilarityDesc
        (matchKnowledgeDocuments dist knowledgeBaseIds matchThreshold
          matchCount table)
    ∧ (matchKnowledgeDocuments dist knowledgeBaseIds matchThreshold
        matchCount table).length ≤ matchCount := by
  refine ⟨?_, ?_, ?_, ?_, ?_⟩
  · intro p hp
    exact mem_matchKnowledgeDocuments hp
  · intro kd _ heq s hin
    rcases mem_matchKnowledgeDocuments hin with ⟨_, _, hs, hlt⟩
    rw [hs, heq] at hlt
    exact lt_irrefl _ hlt
  · intro kd hmem hkb hthr hlen
    exact complete_matchKnowledgeDocuments hmem hkb hthr hlen
  · have hs := List.sorted_insertionSort bySimilarityDesc
      ((table.filter (matchFilter dist knowledgeBaseIds matchThreshold)).map
        (fun kd => (kd, 1 - dist kd)))
    exact hs.sublist (List.take_sublist _ _)
  · exact List.length_take_le _ _

/-- C4 witness: a store with one chunk at distance 3/10 (similarity 7/10),
threshold 1/2 and limit 5 returns that chunk. -/
theorem match_documents_threshold_order_limit_witness :
    ((⟨"d1", "kb1", "alpha"⟩ : KnowledgeDocument), (7 : ℚ)/10) ∈
      matchKnowledgeDocuments (fun _ => 3/10) ["kb1"] (1/2) 5
        [⟨"d1", "kb1", "alpha"⟩] := by
  have h := match_documents_threshold_order_limit (fun _ => 3/10) ["kb1"]
    (1/2) 5 [⟨"d1", "kb1", "alpha"⟩]
  have hmem := h.2.2.1 ⟨"d1", "kb1", "alpha"⟩ (by simp) (by simp)
    (by norm_num)
    (by norm_num [matchFilter, List.filter_cons, List.filter_nil])
  have heq : (1 : ℚ) - 3/10 = 7/10 := by norm_num
  simpa [heq] using hmem

/-- C3 counterexample: a POST /knowledge/search request with
`knowledgeBaseIds = []` is rejected by the zod schema with a validation
error — the endpoint returns an error, not an empty result list. -/
theorem search_empty_kbIds_validation_error :
    postKnowledgeSearch (fun _ => 0) [⟨"d1", "kb1", "alpha"⟩]
      { query := "hello", knowledgeBaseIds := [], threshold := none
        limit := none } = .error "Validation Error" := rfl

/-- C3 amended: a request with `knowledgeBaseIds = []` fails schema
validation (the schema requires at least one id), so the similarity search
is never reached; a search with threshold 1.0 does return the empty list
and no error, since similarity `1 - dist` never strictly exceeds 1 when the
cosine distance is non-negative. -/
theorem search_amended_empty_kb_and_threshold_one :
    (∀ i : SearchKnowledgeInput, i.knowledgeBaseIds = [] →
      searchKnowledgeSchemaParse i = .error "Validation Error")
    ∧ (∀ (dist : KnowledgeDocument → ℚ) (knowledgeBaseIds : List String)
        (matchCount : ℕ) (table : List KnowledgeDocument),
        (∀ kd, 0 ≤ dist kd) →
        matchKnowledgeDocuments dist knowledgeBaseIds 1 matchCount table = []) := by
  constructor
  · intro i hkb
    by_cases hq : i.query.length < 1
    · simp [searchKnowledgeSchemaParse, hq]
    · simp [searchKnowledgeSchemaParse, hq, hkb]
  · intro dist knowledgeBaseIds matchCount table h
    have hf : table.filter (matchFilter dist knowledgeBaseIds 1) = [] := by
      apply List.filter_eq_nil_iff.mpr
      intro kd _
      simp only [matchFilter, decide_eq_true_eq, not_and]
      intro _
      have := h kd
      intro hlt
      linarith
    simp [matchKnowledgeDocuments, hf, List.insertionSort]

/-- C3 witness: the empty id list is rejected on a concrete request, and a
threshold-1 search over a concrete non-negative-distance store is empty. -/
theorem search_amended_empty_kb_and_threshold_one_witness :
    searchKnowledgeSchemaParse
      { query := "hello", knowledgeBaseIds := [], threshold := none
        limit := none } = .error "Validation Error"
    ∧ matchKnowledgeDocuments (fun _ => 0) ["kb1"] 1 5
        [⟨"d1", "kb1", "alpha"⟩] = [] := by
  have h := search_amended_empty_kb_and_threshold_one
  exact ⟨h.1 _ rfl, h.2 (fun _ => 0) ["kb1"] 5 [⟨"d1", "kb1", "alpha"⟩]
    (fun _ => le_refl 0)⟩

/-- C10: for a valid POST /knowledge/search body, every request omitting
`threshold` runs the similarity search with 0.5 (whatever the limit field
holds), every request omitting `limit` runs it with 5 (whatever the
threshold field holds), and a request supplying both uses them unchanged. -/
theorem search_defaults_threshold_limit (dist : KnowledgeDocument → ℚ)
    (table : List KnowledgeDocument) (q : String) (kbIds : List String)
    (thr : ℚ) (lim : ℕ) (hq : 1 ≤ q.length) (hkb : kbIds ≠ []) :
    (∀ limOpt : Option ℕ, postKnowledgeSearch dist table
        { query := q, knowledgeBaseIds := kbIds, threshold := none
          limit := limOpt }
      = .ok (matchKnowledgeDocuments dist kbIds 0.5 (limOpt.getD 5) table))
    ∧ (∀ thrOpt : Option ℚ, postKnowledgeSearch dist table
        { query := q, knowledgeBaseIds := kbIds, threshold := thrOpt
          limit := none }
      = .ok (matchKnowledgeDocuments dist kbIds (thrOpt.getD 0.5) 5 table))
    ∧ postKnowledgeSearch dist table
        { query := q, knowledgeBaseIds := kbIds, threshold := some thr
          limit := some lim }
      = .ok (matchKnowledgeDocuments dist kbIds thr lim table) := by
  have hq2 : ¬ q.length < 1 := by omega
  have hkb2 : ¬ kbIds.length < 1 := by
    have := List.length_pos.mpr hkb
    omega
  refine ⟨?_, ?_, ?_⟩
  · intro limOpt
    simp [postKnowledgeSearch, searchKnowledgeSchemaParse, hq2, hkb2]
  · intro thrOpt
    simp [postKnowledgeSearch, searchKnowledgeSchemaParse, hq2, hkb2]
  · simp [postKnowledgeSearch, searchKnowledgeSchemaParse, hq2, hkb2]

/-- C10 witness: concrete requests omitting only the threshold, omitting
only the limit, and supplying both. -/
theorem search_defaults_threshold_limit_witness :
    postKnowledgeSearch (fun _ => 0) []
        { query := "q", knowledgeBaseIds := ["kb1"], threshold := none
          limit := some 7 }
      = .ok (matchKnowledgeDocuments (fun _ => 0) ["kb1"] 0.5
          ((some 7).getD 5) [])
    ∧ postKnowledgeSearch (fun _ => 0) []
        { query := "q", knowledgeBaseIds := ["kb1"], threshold := some (1/4)
          limit := none }
      = .ok (matchKnowledgeDocuments (fun _ => 0) ["kb1"]
          ((some ((1 : ℚ)/4)).getD 0.5) 5 [])
    ∧ postKnowledgeSearch (fun _ => 0) []
        { query := "q", knowledgeBaseIds := ["kb1"], threshold := some (1/4)
          limit := some 7 }
      = .ok (matchKnowledgeDocuments (fun _ => 0) ["kb1"] (1/4) 7 []) := by
  have h := search_defaults_threshold_limit (fun _ => 0) [] "q" ["kb1"]
    (1/4) 7 (by decide) (by decide)
  exact ⟨h.1 (some 7), h.2.1 (some (1/4)), h.2.2⟩

/-- C2 counterexample: the `search_knowledge_base` tool is not wired to the
thresholded cosine-similarity retrieval.  With one chunk at cosine distance
0 to the query (similarity 1, far above the 0.5 threshold) whose text does
not contain the query words, the spec-modelled retrieval tool returns the
chunk while the implemented tool returns the no-results sentinel. -/
theorem ragTool_not_vector_search_counterexample :
    ragToolResponse [⟨"d1", "kb1", "alpha"⟩] ["kb1"] "beta"
        = "No relevant information found."
    ∧ ragToolSpecResponse (fun _ => 0) [⟨"d1", "kb1", "alpha"⟩] ["kb1"] 0.5
        = "alpha"
    ∧ ragToolResponse [⟨"d1", "kb1", "alpha"⟩] ["kb1"] "beta"
        ≠ ragToolSpecResponse (fun _ => 0) [⟨"d1", "kb1", "alpha"⟩] ["kb1"] 0.5 := by
  have h1 : ragToolResponse [⟨"d1", "kb1", "alpha"⟩] ["kb1"] "beta"
      = "No relevant information found." := by decide
  have h2 : ragToolSpecResponse (fun _ => 0) [⟨"d1", "kb1", "alpha"⟩] ["kb1"] 0.5
      = "alpha" := by
    norm_num [ragToolSpecResponse, matchKnowledgeDocuments, matchFilter,
      List.filter_cons, List.filter_nil, List.insertionSort,
      String.intercalate, String.intercalate.go]
  refine ⟨h1, h2, ?_⟩
  rw [h1, h2]
  decide

/-- C2 amended: for a character with a non-empty set of subscribed
knowledge-base ids the tool is scoped to exactly those ids with a fixed cap
of 5 rows, and its response text is the blank-line join of the matched chunk
contents or the explicit sentinel when nothing matches — but the match is a
case-insensitive substring (ILIKE) filter over chunk contents, not the
thresholded cosine-similarity Retrieval Service. -/
theorem ragTool_ilike_cap_sentinel (table : List KnowledgeDocument)
    (kbIds : List String) (query : String) (hkb : kbIds ≠ []) :
    (∀ kd ∈ table.filter (ragRowFilter kbIds query),
      kd.knowledge_base_id ∈ kbIds ∧ ilikeMatch kd.content query = true)
    ∧ (table.filter (ragRowFilter kbIds query) = [] →
        ragToolResponse table kbIds query = "No relevant information found.")
    ∧ (table.filter (ragRowFilter kbIds query) ≠ [] →
        ragToolResponse table kbIds query
          = String.intercalate "\n\n"
              (((table.filter (ragRowFilter kbIds query)).take 5).map
                (fun d => d.content)))
    ∧ ((table.filter (ragRowFilter kbIds query)).take 5).length ≤ 5 := by
  have hkbl : ¬ kbIds.length = 0 := by
    simpa [List.length_eq_zero] using hkb
  refine ⟨?_, ?_, ?_, List.length_take_le _ _⟩
  · intro kd hkd
    have hflt := (List.mem_filter.mp hkd).2
    simp only [ragRowFilter, Bool.and_eq_true, decide_eq_true_eq] at hflt
    exact hflt
  · intro hnil
    simp [ragToolResponse, hkbl, hnil]
  · intro hne
    have hpos := List.length_pos.mpr hne
    have hlen : ¬ ((table.filter (ragRowFilter kbIds query)).take 5).length = 0 := by
      rw [List.length_take]
      omega
    simp only [ragToolResponse, if_neg hkbl, if_neg hlen]

/-- C2 witness: a store whose chunk contains the query case-insensitively
yields the joined content of the matching chunk. -/
theorem ragTool_ilike_cap_sentinel_witness :
    ragToolResponse [⟨"d1", "kb1", "Hello World"⟩] ["kb1"] "hello"
      = String.intercalate "\n\n"
          ((([(⟨"d1", "kb1", "Hello World"⟩ : KnowledgeDocument)].filter
            (ragRowFilter ["kb1"] "hello")).take 5).map (fun d => d.content)) :=
  (ragTool_ilike_cap_sentinel [⟨"d1", "kb1", "Hello World"⟩] ["kb1"] "hello"
    (by decide)).2.2.1 (by decide)

/-- C6: `streamMessage` persists the inbound user message first and no later
failure removes it (all prior rows and the user row survive every outcome);
an assistant message row is appended exactly when the accumulated response
text is non-empty, so a totally empty failed generation records no assistant
message; and a stream failure surfaces as the inline error marker appended
to the yielded outputs. -/
theorem streamMessage_persistence (st : ChatStreamState)
    (chatId profileId : String) (message : List MessagePart)
    (aiCharacter : Option String) (stream : AgentStreamOutcome) :
    (userMessageRow chatId profileId message ∈
      (streamMessage st chatId profileId message aiCharacter stream).2.messages)
    ∧ (∀ m ∈ st.messages, m ∈
        (streamMessage st chatId profileId message aiCharacter stream).2.messages)
    ∧ (aiCharacter = none →
        (streamMessage st chatId profileId message aiCharacter stream).2.messages
          = st.messages ++ [userMessageRow chatId profileId message])
    ∧ (∀ aiId, aiCharacter = some aiId →
        (fullResponseOf (chunksOf stream) = "" →
          (streamMessage st chatId profileId message aiCharacter stream).2.messages
            = st.messages ++ [userMessageRow chatId profileId message])
        ∧ (fullResponseOf (chunksOf stream) ≠ "" →
          (streamMessage st chatId profileId message aiCharacter stream).2.messages
            = st.messages ++ [userMessageRow chatId profileId message,
                aiMessageRow chatId aiId (fullResponseOf (chunksOf stream))])
        ∧ (∀ cs e, stream = .failure cs e →
            (streamMessage st chatId profileId message aiCharacter stream).1
              = textChunks cs ++ ["\n[Error: " ++ e ++ "]"])) := by
  cases aiCharacter with
  | none =>
    refine ⟨by simp [streamMessage], ?_, by simp [streamMessage], ?_⟩
    · intro m hm
      simp [streamMessage]
      exact Or.inl hm
    · intro aiId h
      cases h
  | some aiId =>
    cases stream with
    | success cs =>
      by_cases hfull : fullResponseOf cs = ""
      · refine ⟨by simp [streamMessage, chunksOf, hfull], ?_, by simp, ?_⟩
        · intro m hm
          simp [streamMessage, chunksOf, hfull]
          exact Or.inl hm
        · intro a ha
          cases ha
          exact ⟨fun _ => by simp [streamMessage, chunksOf, hfull],
            fun h => absurd hfull (by simpa [chunksOf] using h),
            fun cs2 e2 h => by cases h⟩
      · refine ⟨by simp [streamMessage, chunksOf, hfull], ?_, by simp, ?_⟩
        · intro m hm
          simp [streamMessage, chunksOf, hfull]
          exact Or.inl hm
        · intro a ha
          cases ha
          exact ⟨fun h => absurd (by simpa [chunksOf] using h) hfull,
            fun _ => by simp [streamMessage, chunksOf, hfull],
            fun cs2 e2 h => by cases h⟩
    | failure cs e =>
      by_cases hfull : fullResponseOf cs = ""
      · refine ⟨by simp [streamMessage, chunksOf, hfull], ?_, by simp, ?_⟩
        · intro m hm
          simp [streamMessage, chunksOf, hfull]
          exact Or.inl hm
        · intro a ha
          cases ha
          refine ⟨fun _ => by simp [streamMessage, chunksOf, hfull],
            fun h => absurd hfull (by simpa [chunksOf] using h), ?_⟩
          intro cs2 e2 h
          cases h
          simp [streamMessage, chunksOf, hfull]
      · refine ⟨by simp [streamMessage, chunksOf, hfull], ?_, by simp, ?_⟩
        · intro m hm
          simp [streamMessage, chunksOf, hfull]
          exact Or.inl hm
        · intro a ha
          cases ha
          refine ⟨fun h => absurd (by simpa [chunksOf] using h) hfull,
            fun _ => by simp [streamMessage, chunksOf, hfull], ?_⟩
          intro cs2 e2 h
          cases h
          simp [streamMessage, chunksOf, hfull]

/-- C6 witness: a generation that fails before producing any text leaves
exactly the user message persisted and yields only the inline error marker. -/
theorem streamMessage_persistence_witness :
    (streamMessage { messages := [], lastMessage := none } "c1" "u" []
        (some "ai") (.failure [] "boom")).2.messages
      = [userMessageRow "c1" "u" []]
    ∧ (streamMessage { messages := [], lastMessage := none } "c1" "u" []
        (some "ai") (.failure [] "boom")).1
      = ["\n[Error: boom]"] := by
  have h := streamMessage_persistence { messages := [], lastMessage := none }
    "c1" "u" [] (some "ai") (.failure [] "boom")
  have h2 := h.2.2.2 "ai" rfl
  exact ⟨by simpa using h2.1 (by decide), by simpa using h2.2.2 [] "boom" rfl⟩

/-- C7: when the sandboxed plugin has not answered strictly before the
5000 ms timer, the worker is terminated and the call fails with the timeout
error, which the plugin tool surfaces as inline error text; a runtime
exception thrown inside the plugin before the timeout is caught and
surfaced as an execution error carrying the plugin own error message; in
both cases the tool returns text instead of crashing the conversation. -/
theorem plugin_sandbox_timeout_and_errors (pluginName : String)
    (run : PluginRun) :
    (exceedsTimeout run →
      runPluginInSandbox run = .error "Plugin execution timed out"
      ∧ pluginToolResponse pluginName run
          = "Error executing plugin " ++ pluginName ++ ": "
            ++ "Plugin execution timed out")
    ∧ (∀ t m s, run = .throws t m s → t < pluginTimeoutMs → m ≠ "" →
        runPluginInSandbox run = .error m
        ∧ pluginToolResponse pluginName run
            = "Error executing plugin " ++ pluginName ++ ": " ++ m) := by
  constructor
  · intro hto
    cases run with
    | hangs =>
      exact ⟨rfl, by simp [pluginToolResponse, runPluginInSandbox]⟩
    | returns t r =>
      have ht : pluginTimeoutMs ≤ t := hto
      constructor
      · simp [runPluginInSandbox, ht]
      · simp [pluginToolResponse, runPluginInSandbox, ht]
    | throws t m s =>
      have ht : pluginTimeoutMs ≤ t := hto
      constructor
      · simp [runPluginInSandbox, ht]
      · simp [pluginToolResponse, runPluginInSandbox, ht]
  · intro t m s hrun ht hm
    cases hrun
    have ht2 : ¬ pluginTimeoutMs ≤ t := by omega
    constructor
    · simp [runPluginInSandbox, ht2, workerErrorPayload, hm]
    · simp [pluginToolResponse, runPluginInSandbox, ht2, workerErrorPayload, hm]

/-- C7 witness: a plugin hanging forever fails with the timeout text, and a
plugin throwing `boom` at 10 ms surfaces `boom` in the tool response. -/
theorem plugin_sandbox_timeout_and_errors_witness :
    pluginToolResponse "myPlugin" PluginRun.hangs
      = "Error executing plugin " ++ "myPlugin" ++ ": "
        ++ "Plugin execution timed out"
    ∧ pluginToolResponse "myPlugin" (.throws 10 "boom" "Error: boom")
      = "Error executing plugin " ++ "myPlugin" ++ ": " ++ "boom" :=
  ⟨((plugin_sandbox_timeout_and_errors "myPlugin" PluginRun.hangs).1
      trivial).2,
    ((plugin_sandbox_timeout_and_errors "myPlugin"
      (.throws 10 "boom" "Error: boom")).2 10 "boom" "Error: boom" rfl
      (by decide) (by decide)).2⟩

/-- C8 counterexample: the polling worker parser hands a legacy `.doc` file
(MIME `application/msword`, name ending `.doc`) to the plain-text extractor
instead of failing with an unsupported-format error. -/
theorem worker_parser_accepts_legacy_doc :
    workerParseFileContentDispatch "application/msword" "legacy.doc"
        = ParseDispatch.text
    ∧ workerParseFileContentDispatch "application/vnd.ms-powerpoint"
        "slides.ppt" = ParseDispatch.text := by
  constructor <;> decide

/-- C8 amended: in the edge-function parser, a file whose MIME type or
extension marks it as legacy `.doc`, `.ppt` or `.pptx` and which does not
fall into an earlier dispatch branch fails with the explicit
unsupported-format error text; the polling worker parser has no rejection
branch at all and never produces an unsupported-format error, handing such
files to another extractor. -/
theorem legacy_format_rejection_amended :
    (∀ fileType fileName : String,
      mimeOrExt fileType fileName "application/msword" ".doc" →
      ¬ mimeOrExt fileType fileName "application/pdf" ".pdf" →
      ¬ mimeOrExt fileType fileName
        "application/vnd.openxmlformats-officedocument.wordprocessingml.document"
        ".docx" →
      ¬ mimeOrExt fileType fileName
        "application/vnd.openxmlformats-officedocument.presentationml.presentation"
        ".pptx" →
      ¬ mimeOrExt fileType fileName "text/csv" ".csv" →
      ¬ mimeOrExt fileType fileName "application/json" ".json" →
      parseFileContentDispatch fileType fileName
        = .unsupported "不支持 .doc 格式，请转换为 .docx 或 .pdf 后重新上传")
    ∧ (∀ fileType fileName : String,
      mimeOrExt fileType fileName "application/vnd.ms-powerpoint" ".ppt" →
      ¬ mimeOrExt fileType fileName "application/pdf" ".pdf" →
      ¬ mimeOrExt fileType fileName
        "application/vnd.openxmlformats-officedocument.wordprocessingml.document"
        ".docx" →
      ¬ mimeOrExt fileType fileName
        "application/vnd.openxmlformats-officedocument.presentationml.presentation"
        ".pptx" →
      ¬ mimeOrExt fileType fileName "text/csv" ".csv" →
      ¬ mimeOrExt fileType fileName "application/json" ".json" →
      ¬ mimeOrExt fileType fileName "application/msword" ".doc" →
      parseFileContentDispatch fileType fileName
        = .unsupported "不支持 .ppt 格式")
    ∧ (∀ fileType fileName : String,
      mimeOrExt fileType fileName
        "application/vnd.openxmlformats-officedocument.presentationml.presentation"
        ".pptx" →
      ¬ mimeOrExt fileType fileName "application/pdf" ".pdf" →
      ¬ mimeOrExt fileType fileName
        "application/vnd.openxmlformats-officedocument.wordprocessingml.document"
        ".docx" →
      parseFileContentDispatch fileType fileName
        = .unsupported "不支持 .pptx 格式")
    ∧ (∀ (fileType fileName msg : String),
      workerParseFileContentDispatch fileType fileName ≠ .unsupported msg) := by
  refine ⟨?_, ?_, ?_, ?_⟩
  · intro fileType fileName hdoc hpdf hdocx hpptx hcsv hjson
    simp only [mimeOrExt, not_or] at hpdf hdocx hpptx hcsv hjson
    obtain ⟨hp1, hp2⟩ := hpdf
    obtain ⟨hd1, hd2⟩ := hdocx
    obtain ⟨hx1, hx2⟩ := hpptx
    obtain ⟨hc1, hc2⟩ := hcsv
    obtain ⟨hj1, hj2⟩ := hjson
    rcases hdoc with hm | he
    · simp [parseFileContentDispatch, hp1, hp2, hd1, hd2, hx1, hx2, hc1, hc2,
        hj1, hj2, hm]
    · simp [parseFileContentDispatch, hp1, hp2, hd1, hd2, hx1, hx2, hc1, hc2,
        hj1, hj2, he]
  · intro fileType fileName hppt hpdf hdocx hpptx hcsv hjson hdoc
    simp only [mimeOrExt, not_or] at hpdf hdocx hpptx hcsv hjson hdoc
    obtain ⟨hp1, hp2⟩ := hpdf
    obtain ⟨hd1, hd2⟩ := hdocx
    obtain ⟨hx1, hx2⟩ := hpptx
    obtain ⟨hc1, hc2⟩ := hcsv
    obtain ⟨hj1, hj2⟩ := hjson
    obtain ⟨hw1, hw2⟩ := hdoc
    rcases hppt with hm | he
    · simp [parseFileContentDispatch, hp1, hp2, hd1, hd2, hx1, hx2, hc1, hc2,
        hj1, hj2, hw1, hw2, hm]
    · simp [parseFileContentDispatch, hp1, hp2, hd1, hd2, hx1, hx2, hc1, hc2,
        hj1, hj2, hw1, hw2, he]
  · intro fileType fileName hpptx hpdf hdocx
    simp only [mimeOrExt, not_or] at hpdf hdocx
    obtain ⟨hp1, hp2⟩ := hpdf
    obtain ⟨hd1, hd2⟩ := hdocx
    rcases hpptx with hm | he
    · simp [parseFileContentDispatch, hp1, hp2, hd1, hd2, hm]
    · simp [parseFileContentDispatch, hp1, hp2, hd1, hd2, he]
  · intro fileType fileName msg
    simp only [workerParseFileContentDispatch]
    split
    · simp
    · split
      · simp
      · split
        · simp
        · split
          · simp
          · split
            · simp
            · simp

/-- C8 witness: a legacy Word file is rejected by the edge-function parser
at a concrete input, while the worker parser never rejects anything. -/
theorem legacy_format_rejection_amended_witness :
    parseFileContentDispatch "application/msword" "legacy.doc"
        = .unsupported "不支持 .doc 格式，请转换为 .docx 或 .pdf 后重新上传"
    ∧ workerParseFileContentDispatch "application/msword" "legacy.doc"
        ≠ .unsupported "anything" := by
  constructor
  · exact legacy_format_rejection_amended.1 "application/msword" "legacy.doc"
      (by left; decide) (by decide) (by decide) (by decide) (by decide)
      (by decide)
  · exact legacy_format_rejection_amended.2.2.2 "application/msword"
      "legacy.doc" "anything"

/-- C9 counterexample: user `u` already has the private chat `c1` with
character `k`, but because `u` also shares the group chat `c2` with the same
character, the single-row membership lookup sees two rows and fails, and
`createPrivateChat` creates a duplicate chat with `isNew = true`. -/
theorem createPrivateChat_duplicate_with_group_chat :
    ((⟨"c1", "u", "priv", false⟩ : ChatRow) ∈ exampleChatDB.chats)
    ∧ (⟨"c1", "user", some "u", none, "owner"⟩ : ChatMemberRow) ∈
        exampleChatDB.chat_members
    ∧ (⟨"c1", "character", none, some "k", "member"⟩ : ChatMemberRow) ∈
        exampleChatDB.chat_members
    ∧ (createPrivateChat exampleChatDB "c3" "u" "k" "chat").isNew = true
    ∧ (createPrivateChat exampleChatDB "c3" "u" "k" "chat").db.chats.length
        = 3 := by
  refine ⟨by decide, by decide, by decide, by decide, by decide⟩

/-- C9 amended: private chat creation is idempotent provided the lookup
reads succeed as single rows — when the user memberships contain exactly one
character-membership row for that character and exactly one chat row matches
it as a non-group chat, the existing chat is returned with `isNew = false`
and the database is unchanged.  When the user shares a further chat with the
same character (for example a group chat), the `.single()` read fails and a
duplicate private chat is created instead. -/
theorem createPrivateChat_idempotent_amended (db : ChatDB)
    (newId profileId characterId name : String)
    (em : ChatMemberRow) (ch : ChatRow)
    (hne : db.chat_members.filter (fun m =>
      decide (m.member_type = "user" ∧ m.profile_id = some profileId)) ≠ [])
    (hem : singleRow (db.chat_members.filter (fun m =>
      decide (m.chat_id ∈ (db.chat_members.filter (fun m2 =>
          decide (m2.member_type = "user" ∧ m2.profile_id = some profileId))).map
            (fun uc => uc.chat_id)
        ∧ m.member_type = "character"
        ∧ m.character_id = some characterId))) = some em)
    (hch : singleRow (db.chats.filter (fun c =>
      decide (c.id = em.chat_id ∧ c.is_group = false))) = some ch) :
    createPrivateChat db newId profileId characterId name
      = { db := db, chat := ch, isNew := false } := by
  have hlen : (db.chat_members.filter (fun m =>
      decide (m.member_type = "user" ∧ m.profile_id = some profileId))).length > 0 :=
    List.length_pos.mpr hne
  simp only [createPrivateChat]
  rw [if_pos hlen, hem]
  simp only [hch]

/-- C9 witness: in the database holding only the private chat `c1` of `u`
and `k`, re-requesting returns `c1` with `isNew = false` and no new rows. -/
theorem createPrivateChat_idempotent_amended_witness :
    createPrivateChat examplePrivateOnlyDB "c3" "u" "k" "chat"
      = { db := examplePrivateOnlyDB
          chat := ⟨"c1", "u", "priv", false⟩
          isNew := false } :=
  createPrivateChat_idempotent_amended examplePrivateOnlyDB "c3" "u" "k" "chat"
    ⟨"c1", "character", none, some "k", "member"⟩ ⟨"c1", "u", "priv", false⟩
    (by decide) (by decide) (by decide)

theorem map_chunk_count_update_status (files : List KnowledgeFileRow)
    (fileId s : String) :
    (updateFileRow files fileId (fun r => { r with status := s })).map
        (fun r => r.chunk_count)
      = files.map (fun r => r.chunk_count) := by
  simp only [updateFileRow, List.map_map]
  apply List.map_congr_left
  intro r _
  by_cases h : r.id = fileId <;> simp [h]

theorem map_chunk_count_update_failed (files : List KnowledgeFileRow)
    (fileId s msg : String) :
    (updateFileRow files fileId
        (fun r => { r with status := s, error_message := some msg })).map
        (fun r => r.chunk_count)
      = files.map (fun r => r.chunk_count) := by
  simp only [updateFileRow, List.map_map]
  apply List.map_congr_left
  intro r _
  by_cases h : r.id = fileId <;> simp [h]

theorem length_documentsToInsert (kbId fileId : String)
    (splitDocs : List String) (vectors : List (List ℚ)) :
    (documentsToInsert kbId fileId splitDocs vectors).length
      = min splitDocs.length vectors.length := by
  simp [documentsToInsert]

/-- C1: the worker claim step is not an atomic compare-and-set.  With one
pending file, the interleaving in which both workers execute the queue read
before either executes the status write lets both reads return the same
pending file — the second claim attempt does not observe the file as
claimed — and the unconditional write of the second worker succeeds on the
already-processing row, so both workers go on to process the file. -/
theorem claimStep_race_both_workers_claim :
    exampleFileRow.status = "pending"
    ∧ (twoWorkerClaim examplePendingDB).1 = some exampleFileRow
    ∧ (twoWorkerClaim examplePendingDB).2.1 = some exampleFileRow
    ∧ ((twoWorkerClaim examplePendingDB).2.2.files.map (fun r => r.status))
        = ["processing"]
    ∧ claimProcessing (claimProcessing examplePendingDB "f1") "f1"
        = claimProcessing examplePendingDB "f1" := by
  refine ⟨by decide, by decide, by decide, by decide, by decide⟩

/-- C5 counterexample: a fully successful worker ingestion producing two
chunks marks the file completed but leaves `chunk_count` untouched (still
`none`), although two chunk rows were inserted for the file. -/
theorem worker_completed_without_chunk_count :
    ((processOne exampleIngestWorld examplePendingDB).files.map
        (fun r => (r.status, r.chunk_count))) = [("completed", none)]
    ∧ (processOne exampleIngestWorld examplePendingDB).documents.length = 2 := by
  refine ⟨by decide, by decide⟩

/-- C5 amended: the edge-function ingestion path records
`chunk_count = number of chunks inserted` in its terminal completed update,
while the polling worker path marks the file completed without ever writing
the `chunk_count` column (the column is unchanged in every worker run). -/
theorem ingestion_chunk_count_amended :
    (∀ (w : IngestWorld) (db : IngestDB) (fileId kbId fileName : String)
      (content : UploadContent) (pages : List String) (vectors : List (List ℚ)),
      edgeParsedPages w fileName content = .ok pages →
      ¬ (String.intercalate "\n\n" pages).length = 0 →
      ¬ (w.split (String.intercalate "\n\n" pages)).length = 0 →
      w.embed (w.split (String.intercalate "\n\n" pages)) = .ok vectors →
      vectors.length = (w.split (String.intercalate "\n\n" pages)).length →
      w.insertOutcome = none →
      processDocumentTask w db fileId kbId fileName content
        = { files := updateFileRow db.files fileId (fun r =>
              { r with
                status := "completed"
                chunk_count :=
                  some (w.split (String.intercalate "\n\n" pages)).length })
            documents := db.documents ++
              documentsToInsert kbId fileId
                (w.split (String.intercalate "\n\n" pages)) vectors }
      ∧ (documentsToInsert kbId fileId
            (w.split (String.intercalate "\n\n" pages)) vectors).length
          = (w.split (String.intercalate "\n\n" pages)).length)
    ∧ (∀ (w : IngestWorld) (db : IngestDB),
        (processOne w db).files.map (fun r => r.chunk_count)
          = db.files.map (fun r => r.chunk_count)) := by
  constructor
  · intro w db fileId kbId fileName content pages vectors hparse hcont hsplit
      hembed hvec hins
    constructor
    · simp only [processDocumentTask, hparse, if_neg hcont, if_neg hsplit,
        hembed, hins]
    · rw [length_documentsToInsert, hvec]
      exact Nat.min_self _
  · intro w db
    cases hq : pendingQueueHead db with
    | none => simp [processOne, hq]
    | some fr =>
      simp only [processOne, hq]
      repeat' split
      all_goals
        simp only [markFileFailed, claimProcessing]
      all_goals
        simp [map_chunk_count_update_status, map_chunk_count_update_failed]

/-- C5 witness: a concrete successful edge-function run over text content
splitting into two chunks records `chunk_count = 2` and inserts two chunk
rows, applied through the amended theorem. -/
theorem ingestion_chunk_count_amended_witness :
    processDocumentTask exampleIngestWorld examplePendingDB "f1" "kb1"
        "f1.txt" (.text "hello world")
      = { files := updateFileRow examplePendingDB.files "f1" (fun r =>
            { r with
              status := "completed"
              chunk_count := some (exampleIngestWorld.split
                (String.intercalate "\n\n" ["hello world"])).length })
          documents := examplePendingDB.documents ++
            documentsToInsert "kb1" "f1"
              (exampleIngestWorld.split
                (String.intercalate "\n\n" ["hello world"]))
              [[0], [0]] }
    ∧ (documentsToInsert "kb1" "f1"
        (exampleIngestWorld.split (String.intercalate "\n\n" ["hello world"]))
        [[0], [0]]).length
      = (exampleIngestWorld.split
          (String.intercalate "\n\n" ["hello world"])).length :=
  ingestion_chunk_count_amended.1 exampleIngestWorld examplePendingDB "f1"
    "kb1" "f1.txt" (.text "hello world") ["hello world"] [[0], [0]]
    rfl (by decide) (by decide) rfl (by decide) rfl
